import Mathlib

/-!
# prommongo: Prometheus collectors fed by MongoDB driver monitor hooks

A shallow embedding of `prommongo.go`.  The two collectors are records of their Go
fields; a method with a pointer receiver becomes a function on that record.  A Go
pointer that may be nil is an `Option`, a run-time panic is an `Except.error`, and a
channel is the list of the values sent on it, in order.  The read/write mutex guards
every access below and is left out of this sequential model.
-/

namespace Prommongo

/-! ## Go values -/

/-- Run-time panics. `nilDereference` is the one the Go runtime raises for a field access
through a nil pointer and for a call of a nil func value; `raised` is any other panic,
which only foreign code (a parent hook) can produce here. -/
inductive GoPanic where
  | nilDereference
  | raised (msg : String)
deriving DecidableEq, Repr

/-- Largest `int64`. -/
def maxInt64 : Int := 2 ^ 63 - 1

/-- Smallest `int64`. -/
def minInt64 : Int := -(2 ^ 63)

/-- Whether an integer is an `int64` value. -/
def isInt64 (x : Int) : Prop := minInt64 ≤ x ∧ x ≤ maxInt64

instance (x : Int) : Decidable (isInt64 x) := by
  unfold isInt64; exact inferInstance

/-- Two's-complement reduction of an integer to `int64`: what Go keeps of the result of
signed 64-bit arithmetic. -/
def wrapInt64 (x : Int) : Int := (x + 2 ^ 63) % 2 ^ 64 - 2 ^ 63

/-- Number of binary digits of `n`, counted for at most `fuel` digits. -/
def bitLength : Nat → Nat → Nat
  | 0, _ => 0
  | fuel + 1, n => if n = 0 then 0 else bitLength fuel (n / 2) + 1

/-- Go's conversion `float64(x)` of a 64-bit integer: rounding to the nearest value with a
53-bit significand, ties to even.  The result is again an integer, so it is returned as
one. -/
def float64 (x : Int) : Int :=
  let n := x.natAbs
  let shift := bitLength 64 n - 53
  let q := n / 2 ^ shift
  let r := n % 2 ^ shift
  let q1 := if 2 ^ shift < 2 * r ∨ (2 * r = 2 ^ shift ∧ q % 2 = 1) then q + 1 else q
  Int.sign x * ((q1 * 2 ^ shift : Nat) : Int)

/-! ## The Prometheus client types used by the collectors -/

/-- A `prometheus.Desc` built without labels: fully qualified name and help text. -/
structure Desc where
  fqName : String
  help : String
deriving DecidableEq, Repr

/-- The call `prometheus.NewDesc(fqName, help, nil, nil)`. -/
def NewDesc (fqName help : String) : Desc := { fqName := fqName, help := help }

/-- The `prometheus.ValueType` constants. -/
inductive ValueType where
  | CounterValue
  | GaugeValue
  | UntypedValue
deriving DecidableEq, Repr

/-- A constant metric: its descriptor, its kind and its `float64` value. -/
structure Metric where
  desc : Desc
  valueType : ValueType
  value : Int
deriving DecidableEq, Repr

/-- The call `prometheus.MustNewConstMetric(desc, valueType, value)`.  The descriptors of
this package have no variable labels and no label value is passed, so the label check of
the client library passes and the call returns the metric. -/
def MustNewConstMetric (desc : Desc) (valueType : ValueType) (value : Int) : Metric :=
  { desc := desc, valueType := valueType, value := value }

/-! ## The driver's event types (package `event`) -/

namespace event

/-- The struct `event.CommandStartedEvent`. -/
structure CommandStartedEvent where
  Command : String
  DatabaseName : String
  CommandName : String
  RequestID : Int
  ConnectionID : String
deriving DecidableEq, Repr

/-- The struct `event.CommandFinishedEvent`. -/
structure CommandFinishedEvent where
  DurationNanos : Int
  CommandName : String
  RequestID : Int
  ConnectionID : String
deriving DecidableEq, Repr

/-- The struct `event.CommandSucceededEvent`, which embeds `CommandFinishedEvent`. -/
structure CommandSucceededEvent where
  CommandFinishedEvent : CommandFinishedEvent
  Reply : String
deriving DecidableEq, Repr

/-- The struct `event.CommandFailedEvent`, which embeds `CommandFinishedEvent`. -/
structure CommandFailedEvent where
  CommandFinishedEvent : CommandFinishedEvent
  Failure : String
deriving DecidableEq, Repr

/-- The struct `event.MonitorPoolOptions`; the three fields are `uint64`. -/
structure MonitorPoolOptions where
  MaxPoolSize : Nat
  MinPoolSize : Nat
  WaitQueueTimeoutMS : Nat
deriving DecidableEq, Repr

/-- The struct `event.PoolEvent`.  Its field `Type` is a string and is written `Type_`
here; `PoolOptions` is a pointer. -/
structure PoolEvent where
  Type_ : String
  Address : String
  ConnectionID : Nat
  PoolOptions : Option MonitorPoolOptions
  Reason : String
deriving DecidableEq, Repr

/-- The driver's constant `event.ConnectionClosed`. -/
def ConnectionClosed : String := "ConnectionClosed"
/-- The driver's constant `event.PoolCreated`. -/
def PoolCreated : String := "ConnectionPoolCreated"
/-- The driver's constant `event.ConnectionCreated`. -/
def ConnectionCreated : String := "ConnectionCreated"
/-- The driver's constant `event.GetFailed`. -/
def GetFailed : String := "ConnectionCheckOutFailed"
/-- The driver's constant `event.GetSucceeded`. -/
def GetSucceeded : String := "ConnectionCheckedOut"
/-- The driver's constant `event.ConnectionReturned`. -/
def ConnectionReturned : String := "ConnectionCheckedIn"
/-- The driver's constant `event.PoolCleared`. -/
def PoolCleared : String := "ConnectionPoolCleared"
/-- The driver's constant `event.PoolClosedEvent`. -/
def PoolClosedEvent : String := "ConnectionPoolClosed"

/-- The struct `event.PoolMonitor`: one func field, nil when unset.  A hook is run by the
driver inside some program state `S`; it may fail with a panic.  The hook is handed the
pointer `e`, so it may write the event it points to: a call returns the event as the hook
leaves it, together with the program state. -/
structure PoolMonitor (S : Type) where
  Event : Option (Option PoolEvent → S → Except GoPanic (Option PoolEvent × S))

/-- The struct `event.CommandMonitor`: three func fields, each nil when unset.  `Ctx` is
the type of the `context.Context` argument.  Each hook is handed a pointer to the event
and returns the event as it leaves it, together with the program state. -/
structure CommandMonitor (Ctx S : Type) where
  Started : Option (Ctx → Option CommandStartedEvent → S →
    Except GoPanic (Option CommandStartedEvent × S))
  Succeeded : Option (Ctx → Option CommandSucceededEvent → S →
    Except GoPanic (Option CommandSucceededEvent × S))
  Failed : Option (Ctx → Option CommandFailedEvent → S →
    Except GoPanic (Option CommandFailedEvent × S))

end event

/-- A call `f(args)` of a func value `f`, here already applied to its arguments up to the
program state: calling a nil func value panics. -/
def callFunc {S R : Type} (f : Option (S → Except GoPanic R)) (s : S) : Except GoPanic R :=
  match f with
  | none => Except.error GoPanic.nilDereference
  | some g => g s

/-! ## The command collector -/

/-- The Go function `fqName`. -/
def fqName (name : String) : String := "go_mongo_" ++ name

/-- The struct `commandMonitorCollector`, without its mutex.  `commandDurationNs` is an
`int64`. -/
structure commandMonitorCollector where
  commandDurationNs : Int
  commandDurationNsDesc : Desc
deriving DecidableEq, Repr

/-- The Go function `NewCommandMonitorCollector`; the field left out of the struct literal
has Go's zero value. -/
def NewCommandMonitorCollector : commandMonitorCollector :=
  { commandDurationNs := 0
    commandDurationNsDesc := NewDesc (fqName "command_duration_ns") "Elapsed time of command." }

/-- The method `commandMonitorCollector.Describe`; the result is what is sent on `ch`. -/
def commandMonitorCollector.Describe (c : commandMonitorCollector) : List Desc :=
  [c.commandDurationNsDesc]

/-- The method `commandMonitorCollector.Collect`; the result is what is sent on `ch`,
together with the collector afterwards. -/
def commandMonitorCollector.Collect (c : commandMonitorCollector) :
    List Metric × commandMonitorCollector :=
  ([MustNewConstMetric c.commandDurationNsDesc ValueType.GaugeValue (float64 c.commandDurationNs)],
   c)

/-- The method `commandMonitorCollector.updateCommandStats`; the event is passed by value. -/
def commandMonitorCollector.updateCommandStats (c : commandMonitorCollector)
    (e : event.CommandFinishedEvent) : commandMonitorCollector :=
  { c with commandDurationNs := e.DurationNanos }

/-- The selector `e.CommandFinishedEvent` on a `*event.CommandSucceededEvent`: it reads
through the pointer. -/
def succeededFinished (e : Option event.CommandSucceededEvent) :
    Except GoPanic event.CommandFinishedEvent :=
  match e with
  | none => Except.error GoPanic.nilDereference
  | some ev => Except.ok ev.CommandFinishedEvent

/-- The selector `e.CommandFinishedEvent` on a `*event.CommandFailedEvent`. -/
def failedFinished (e : Option event.CommandFailedEvent) :
    Except GoPanic event.CommandFinishedEvent :=
  match e with
  | none => Except.error GoPanic.nilDereference
  | some ev => Except.ok ev.CommandFinishedEvent

/-- The method `commandMonitorCollector.CommandMonitor`.  The receiver is a pointer: the
returned closures act on the collector found in the program state, whose other part `W`
is everything else a parent hook may touch.  The parent is called with the pointer `e`;
`e.CommandFinishedEvent` is read after the parent has returned, from the event as the
parent left it. -/
def commandMonitorCollector.CommandMonitor {Ctx W : Type}
    (parent : Option (event.CommandMonitor Ctx (commandMonitorCollector × W))) :
    event.CommandMonitor Ctx (commandMonitorCollector × W) :=
  { Started := some fun ctx e s =>
      match parent with
      | some p => callFunc (p.Started.map fun f => f ctx e) s
      | none => Except.ok (e, s)
    Succeeded := some fun ctx e s => do
      let r ← match parent with
        | some p => callFunc (p.Succeeded.map fun f => f ctx e) s
        | none => Except.ok (e, s)
      let fin ← succeededFinished r.1
      Except.ok (r.1, (r.2.1.updateCommandStats fin, r.2.2))
    Failed := some fun ctx e s => do
      let r ← match parent with
        | some p => callFunc (p.Failed.map fun f => f ctx e) s
        | none => Except.ok (e, s)
      let fin ← failedFinished r.1
      Except.ok (r.1, (r.2.1.updateCommandStats fin, r.2.2)) }

/-! ## The pool collector -/

/-- The struct `poolMonitorCollector`, without its mutex.  The eight counters are `int64`,
the three pool settings `uint64`. -/
structure poolMonitorCollector where
  connClosed : Int
  poolCreated : Int
  connCreated : Int
  getFailed : Int
  getSucceded : Int
  connReturned : Int
  poolCleard : Int
  poolClosed : Int
  maxPoolSize : Nat
  minPoolSize : Nat
  waitQueueTimeoutMS : Nat
  connClosedDesc : Desc
  poolCreatedDesc : Desc
  connCreatedDesc : Desc
  getFailedDesc : Desc
  getSuccededDesc : Desc
  connReturnedDesc : Desc
  poolClearedDesc : Desc
  poolClosedDec : Desc
  maxPoolSizeDesc : Desc
  minPoolSizeDesc : Desc
  waitQueueTimeoutMSDesc : Desc
deriving DecidableEq, Repr

/-- The Go function `NewPoolMonitorCollector`; the fields left out of the struct literal
have Go's zero value. -/
def NewPoolMonitorCollector : poolMonitorCollector :=
  { connClosed := 0, poolCreated := 0, connCreated := 0, getFailed := 0, getSucceded := 0
    connReturned := 0, poolCleard := 0, poolClosed := 0
    maxPoolSize := 0, minPoolSize := 0, waitQueueTimeoutMS := 0
    connClosedDesc := NewDesc (fqName "connection_closed")
      "The total number of closed connection events."
    poolCreatedDesc := NewDesc (fqName "pool_created")
      "The total number of pool created events."
    connCreatedDesc := NewDesc (fqName "connection_created")
      "The total number of connection created events."
    getFailedDesc := NewDesc (fqName "get_failed")
      "The total number of connection checkout failed events."
    getSuccededDesc := NewDesc (fqName "get_succeeded")
      "The total number of connection checkedout events."
    connReturnedDesc := NewDesc (fqName "connection_returnd")
      "The total number of connection checkedin events."
    poolClearedDesc := NewDesc (fqName "pool_cleared")
      "The total number of connection pool cleared events"
    poolClosedDec := NewDesc (fqName "pool_closed")
      "The total number of connection pool closed events"
    maxPoolSizeDesc := NewDesc (fqName "max_pool_size")
      "The maximum number of connections allowed in the driver's connection pool to each server."
    minPoolSizeDesc := NewDesc (fqName "min_pool_size")
      "The minimum number of connections allowed in the driver's connection pool to each server."
    waitQueueTimeoutMSDesc := NewDesc (fqName "wait_queue_timeout_ms")
      "The maximum amount of time a thread can wait for a connection to become available." }

/-- The method `poolMonitorCollector.Describe`; the result is what is sent on `ch`. -/
def poolMonitorCollector.Describe (c : poolMonitorCollector) : List Desc :=
  [c.connClosedDesc, c.poolCreatedDesc, c.connCreatedDesc, c.getFailedDesc, c.getSuccededDesc,
   c.connReturnedDesc, c.poolClearedDesc, c.poolClosedDec,
   c.maxPoolSizeDesc, c.minPoolSizeDesc, c.waitQueueTimeoutMSDesc]

/-- The method `poolMonitorCollector.Collect`; the result is what is sent on `ch`,
together with the collector afterwards. -/
def poolMonitorCollector.Collect (c : poolMonitorCollector) :
    List Metric × poolMonitorCollector :=
  ([MustNewConstMetric c.connClosedDesc ValueType.CounterValue (float64 c.connClosed),
    MustNewConstMetric c.poolCreatedDesc ValueType.CounterValue (float64 c.poolCreated),
    MustNewConstMetric c.connCreatedDesc ValueType.CounterValue (float64 c.connCreated),
    MustNewConstMetric c.getFailedDesc ValueType.CounterValue (float64 c.getFailed),
    MustNewConstMetric c.getSuccededDesc ValueType.CounterValue (float64 c.getSucceded),
    MustNewConstMetric c.connReturnedDesc ValueType.CounterValue (float64 c.connReturned),
    MustNewConstMetric c.poolClearedDesc ValueType.CounterValue (float64 c.poolCleard),
    MustNewConstMetric c.poolClosedDec ValueType.CounterValue (float64 c.poolClosed),
    MustNewConstMetric c.maxPoolSizeDesc ValueType.GaugeValue (float64 c.maxPoolSize),
    MustNewConstMetric c.minPoolSizeDesc ValueType.GaugeValue (float64 c.minPoolSize),
    MustNewConstMetric c.waitQueueTimeoutMSDesc ValueType.GaugeValue
      (float64 c.waitQueueTimeoutMS)],
   c)

/-- The `switch e.Type` statement of `updateStats`: the first case equal to the tag runs,
and no case runs for any other tag. -/
def countEvent (c : poolMonitorCollector) (tag : String) : poolMonitorCollector :=
  if tag = event.ConnectionClosed then { c with connClosed := wrapInt64 (c.connClosed + 1) }
  else if tag = event.PoolCreated then { c with poolCreated := wrapInt64 (c.poolCreated + 1) }
  else if tag = event.ConnectionCreated then
    { c with connCreated := wrapInt64 (c.connCreated + 1) }
  else if tag = event.GetFailed then { c with getFailed := wrapInt64 (c.getFailed + 1) }
  else if tag = event.GetSucceeded then { c with getSucceded := wrapInt64 (c.getSucceded + 1) }
  else if tag = event.ConnectionReturned then
    { c with connReturned := wrapInt64 (c.connReturned + 1) }
  else if tag = event.PoolCleared then { c with poolCleard := wrapInt64 (c.poolCleard + 1) }
  else if tag = event.PoolClosedEvent then { c with poolClosed := wrapInt64 (c.poolClosed + 1) }
  else c

/-- The `if e.PoolOptions != nil` statement of `updateStats`. -/
def storePoolOptions (c : poolMonitorCollector) (o : Option event.MonitorPoolOptions) :
    poolMonitorCollector :=
  match o with
  | some po =>
    { c with maxPoolSize := po.MaxPoolSize, minPoolSize := po.MinPoolSize,
             waitQueueTimeoutMS := po.WaitQueueTimeoutMS }
  | none => c

/-- The method `poolMonitorCollector.updateStats`: the event is read through the pointer
`e`, then the two statements run in turn. -/
def poolMonitorCollector.updateStats (c : poolMonitorCollector) (e : Option event.PoolEvent) :
    Except GoPanic poolMonitorCollector :=
  match e with
  | none => Except.error GoPanic.nilDereference
  | some ev => Except.ok (storePoolOptions (countEvent c ev.Type_) ev.PoolOptions)

/-- The method `poolMonitorCollector.PoolMonitor`.  The receiver is a pointer: the returned
closure acts on the collector found in the program state, whose other part `W` is
everything else a parent hook may touch.  The parent is called with the pointer `e`;
`updateStats` then reads the event as the parent left it. -/
def poolMonitorCollector.PoolMonitor {W : Type}
    (parent : Option (event.PoolMonitor (poolMonitorCollector × W))) :
    event.PoolMonitor (poolMonitorCollector × W) :=
  { Event := some fun e s => do
      let r ← match parent with
        | some p => callFunc (p.Event.map fun f => f e) s
        | none => Except.ok (e, s)
      let c1 ← r.2.1.updateStats r.1
      Except.ok (r.1, (c1, r.2.2)) }

/-! ## Delivery of events by the driver -/

/-- The driver's call `monitor.Event(e)` with a pointer to a new event; the driver does
not look at the event again, what remains is the program state. -/
def deliverPool {S : Type} (m : event.PoolMonitor S) (s : S) (e : event.PoolEvent) :
    Except GoPanic S :=
  (callFunc (m.Event.map fun f => f (some e)) s).map fun r => r.2

/-- A sequence of pool events delivered one after the other. -/
def deliverPoolAll {S : Type} (m : event.PoolMonitor S) (s : S) (evs : List event.PoolEvent) :
    Except GoPanic S :=
  evs.foldlM (deliverPool m) s

/-- A command event as the driver publishes it: which entry point, with which event. -/
inductive CommandEvent where
  | Started (e : event.CommandStartedEvent)
  | Succeeded (e : event.CommandSucceededEvent)
  | Failed (e : event.CommandFailedEvent)
deriving DecidableEq, Repr

/-- The driver's call of the entry point that belongs to a command event, with a pointer
to a new event; the driver does not look at the event again, what remains is the program
state. -/
def deliverCommand {Ctx S : Type} (m : event.CommandMonitor Ctx S) (ctx : Ctx) (s : S)
    (e : CommandEvent) : Except GoPanic S :=
  match e with
  | CommandEvent.Started ev =>
    (callFunc (m.Started.map fun f => f ctx (some ev)) s).map fun r => r.2
  | CommandEvent.Succeeded ev =>
    (callFunc (m.Succeeded.map fun f => f ctx (some ev)) s).map fun r => r.2
  | CommandEvent.Failed ev =>
    (callFunc (m.Failed.map fun f => f ctx (some ev)) s).map fun r => r.2

/-- A sequence of command events delivered one after the other. -/
def deliverCommandAll {Ctx S : Type} (m : event.CommandMonitor Ctx S) (ctx : Ctx) (s : S)
    (evs : List CommandEvent) : Except GoPanic S :=
  evs.foldlM (deliverCommand m ctx) s

/-! ## Notions used in the statements -/

/-- The collector after `updateStats` on a non-nil event. -/
def statsAfter (c : poolMonitorCollector) (e : event.PoolEvent) : poolMonitorCollector :=
  storePoolOptions (countEvent c e.Type_) e.PoolOptions

/-- How many events of a sequence have the kind `k`. -/
def countKind (k : String) (evs : List event.PoolEvent) : Nat :=
  evs.countP fun e => decide (e.Type_ = k)

/-- The pool settings carried by the last event of a sequence that carries any. -/
def lastPoolOptions (evs : List event.PoolEvent) : Option event.MonitorPoolOptions :=
  (evs.filterMap fun e => e.PoolOptions).getLast?

/-- The finished-event part of a command event; a Started event has none. -/
def finishedOf (e : CommandEvent) : Option event.CommandFinishedEvent :=
  match e with
  | CommandEvent.Started _ => none
  | CommandEvent.Succeeded ev => some ev.CommandFinishedEvent
  | CommandEvent.Failed ev => some ev.CommandFinishedEvent

/-- The duration of the last Succeeded-or-Failed event of a sequence, if there is one. -/
def lastDuration (evs : List CommandEvent) : Option Int :=
  ((evs.filterMap finishedOf).getLast?).map fun fin => fin.DurationNanos

/-- A parent pool hook that is absent, or whose `Event` is set, returns normally and leaves
the event and the collector as it found them (it may change the rest of the program state
at will). -/
def quietPoolParent {W : Type}
    (parent : Option (event.PoolMonitor (poolMonitorCollector × W))) : Prop :=
  ∀ p, parent = some p →
    ∃ f, p.Event = some f ∧ ∀ e c w, ∃ w1, f e (c, w) = Except.ok (e, (c, w1))

/-- A parent command hook that is absent, or whose three entry points are set, return
normally and leave the event and the collector as they found them. -/
def quietCommandParent {Ctx W : Type}
    (parent : Option (event.CommandMonitor Ctx (commandMonitorCollector × W))) : Prop :=
  ∀ p, parent = some p →
    (∃ f, p.Started = some f ∧ ∀ ctx e c w, ∃ w1, f ctx e (c, w) = Except.ok (e, (c, w1))) ∧
    (∃ f, p.Succeeded = some f ∧
      ∀ ctx e c w, ∃ w1, f ctx e (c, w) = Except.ok (e, (c, w1))) ∧
    (∃ f, p.Failed = some f ∧ ∀ ctx e c w, ∃ w1, f ctx e (c, w) = Except.ok (e, (c, w1)))

/-- A pool event of the given kind that carries the given pool settings. -/
def poolEventOf (kind : String) (o : Option event.MonitorPoolOptions) : event.PoolEvent :=
  { Type_ := kind, Address := "localhost:27017", ConnectionID := 0, PoolOptions := o,
    Reason := "" }

/-- The end-to-end scenario: a pool is created with settings (100, 0, 0), then a connection
is created, then a connection is closed. -/
def scenarioEvents : List event.PoolEvent :=
  [poolEventOf event.PoolCreated
     (some { MaxPoolSize := 100, MinPoolSize := 0, WaitQueueTimeoutMS := 0 }),
   poolEventOf event.ConnectionCreated none,
   poolEventOf event.ConnectionClosed none]

/-- The three pool settings of a collector. -/
def poolSettings (c : poolMonitorCollector) : Nat × Nat × Nat :=
  (c.maxPoolSize, c.minPoolSize, c.waitQueueTimeoutMS)

/-- The command collector after one delivered command event: a finished event is stored by
`updateCommandStats`, a Started event is not. -/
def commandAfter (c : commandMonitorCollector) (e : CommandEvent) : commandMonitorCollector :=
  match finishedOf e with
  | some fin => c.updateCommandStats fin
  | none => c

/-- A parent pool hook that only records: it appends to a log the kind of the event it is
given together with the `getSucceded` counter it sees at that moment, and leaves the event
and the collector alone. -/
def recordingParent : event.PoolMonitor (poolMonitorCollector × List (String × Int)) :=
  { Event := some fun e s =>
      Except.ok (e, (s.1, s.2 ++ [((e.map fun ev => ev.Type_).getD "", s.1.getSucceded)])) }

/-- A parent pool hook that marks the event it is given: it sets `e.Type = "seen"` and
`e.PoolOptions = nil`, and touches nothing else. -/
def markingParent : event.PoolMonitor (poolMonitorCollector × Unit) :=
  { Event := some fun e s =>
      Except.ok (e.map fun ev => { ev with Type_ := "seen", PoolOptions := none }, s) }

/-- A parent command hook that rounds the duration of a Succeeded event down to whole
microseconds: it sets `e.DurationNanos = e.DurationNanos / 1000 * 1000`. -/
def roundingParent : event.CommandMonitor Unit (commandMonitorCollector × Unit) :=
  { Started := some fun _ e s => Except.ok (e, s)
    Succeeded := some fun _ e s =>
      Except.ok
        (e.map fun ev =>
          { ev with CommandFinishedEvent :=
              { ev.CommandFinishedEvent with
                DurationNanos := ev.CommandFinishedEvent.DurationNanos / 1000 * 1000 } },
         s)
    Failed := some fun _ e s => Except.ok (e, s) }

/-- A parent command hook with only `Succeeded` set; it counts its calls. -/
def succeededOnlyParent : event.CommandMonitor Unit (commandMonitorCollector × Nat) :=
  { Started := none
    Succeeded := some fun _ e s => Except.ok (e, (s.1, s.2 + 1))
    Failed := none }

/-- A parent pool hook whose `Event` is unset. -/
def emptyPoolParent : event.PoolMonitor (poolMonitorCollector × Nat) :=
  { Event := none }

/-- A finished command event of the given duration. -/
def finishedOfDuration (d : Int) : event.CommandFinishedEvent :=
  { DurationNanos := d, CommandName := "find", RequestID := 1, ConnectionID := "conn-1" }

/-- A Started command event. -/
def startedEvent : event.CommandStartedEvent :=
  { Command := "", DatabaseName := "testing", CommandName := "find", RequestID := 1,
    ConnectionID := "conn-1" }

/-- A pool collector state that some sequence of events, delivered through the hook of a
fresh collector, leads to. -/
def poolReachable (c : poolMonitorCollector) : Prop :=
  ∃ evs : List event.PoolEvent,
    deliverPoolAll (poolMonitorCollector.PoolMonitor none) (NewPoolMonitorCollector, ()) evs
      = Except.ok (c, ())

/-- A command collector state that some sequence of events, delivered through the hook of a
fresh collector, leads to. -/
def commandReachable (c : commandMonitorCollector) : Prop :=
  ∃ evs : List CommandEvent,
    deliverCommandAll (commandMonitorCollector.CommandMonitor none) ()
      (NewCommandMonitorCollector, ()) evs = Except.ok (c, ())

/-- The names the test looks for among the gathered metric families
(`prommongo_test.go`, the slice `names`). -/
def testNames : List String :=
  ["go_mongo_command_duration_ns",
   "go_mongo_connection_closed",
   "go_mongo_connection_created",
   "go_mongo_connection_returnd",
   "go_mongo_get_failed",
   "go_mongo_get_succeeded",
   "go_mongo_pool_cleared",
   "go_mongo_pool_closed",
   "go_mongo_pool_created",
   "go_mongo_max_pool_size",
   "go_mongo_min_pool_size",
   "go_mongo_wait_queue_timeout_ms"]

/-- The eight counters of a pool collector, in the order of the struct fields. -/
def counters (c : poolMonitorCollector) : List Int :=
  [c.connClosed, c.poolCreated, c.connCreated, c.getFailed, c.getSucceded, c.connReturned,
   c.poolCleard, c.poolClosed]

/-- The eight recognized kinds, each at the position of its counter in `counters`. -/
def kinds : List String :=
  [event.ConnectionClosed, event.PoolCreated, event.ConnectionCreated, event.GetFailed,
   event.GetSucceeded, event.ConnectionReturned, event.PoolCleared, event.PoolClosedEvent]

/-- A collector that has counted 2^63 - 1 closed connections. -/
def closedAtMax : poolMonitorCollector :=
  { NewPoolMonitorCollector with connClosed := maxInt64 }

/-- A collector that has counted 2^63 - 1 successful checkouts. -/
def succeededAtMax : poolMonitorCollector :=
  { NewPoolMonitorCollector with getSucceded := maxInt64 }

/-! ## 64-bit arithmetic -/

theorem wrapInt64_of_isInt64 {x : Int} (h : isInt64 x) : wrapInt64 x = x := by
  unfold isInt64 minInt64 maxInt64 at h
  unfold wrapInt64
  omega

theorem wrapInt64_wrap_add (a b : Int) : wrapInt64 (wrapInt64 a + b) = wrapInt64 (a + b) := by
  unfold wrapInt64
  omega

theorem isInt64_wrapInt64 (x : Int) : isInt64 (wrapInt64 x) := by
  unfold isInt64 minInt64 maxInt64 wrapInt64
  omega

theorem wrapInt64_succ_of_lt {x : Int} (h : isInt64 x) (hlt : x < maxInt64) :
    wrapInt64 (x + 1) = x + 1 := by
  unfold isInt64 minInt64 maxInt64 at h
  unfold maxInt64 at hlt
  unfold wrapInt64
  omega

theorem wrapInt64_natCast_of_lt {n : Nat} (h : n < 2 ^ 63) : wrapInt64 (0 + (n : Int)) = n := by
  unfold wrapInt64
  omega

/-! ## One pool update, field by field -/

theorem updateStats_some (c : poolMonitorCollector) (e : event.PoolEvent) :
    c.updateStats (some e) = Except.ok (statsAfter c e) := rfl

theorem countEvent_connClosed (c : poolMonitorCollector) (t : String) :
    (countEvent c t).connClosed =
      if t = event.ConnectionClosed then wrapInt64 (c.connClosed + 1) else c.connClosed := by
  unfold countEvent
  split_ifs <;> rfl

theorem countEvent_poolCreated (c : poolMonitorCollector) (t : String) :
    (countEvent c t).poolCreated =
      if t = event.PoolCreated then wrapInt64 (c.poolCreated + 1) else c.poolCreated := by
  unfold countEvent
  split_ifs <;> first | rfl | (subst_vars; simp_all +decide)

theorem countEvent_connCreated (c : poolMonitorCollector) (t : String) :
    (countEvent c t).connCreated =
      if t = event.ConnectionCreated then wrapInt64 (c.connCreated + 1) else c.connCreated := by
  unfold countEvent
  split_ifs <;> first | rfl | (subst_vars; simp_all +decide)

theorem countEvent_getFailed (c : poolMonitorCollector) (t : String) :
    (countEvent c t).getFailed =
      if t = event.GetFailed then wrapInt64 (c.getFailed + 1) else c.getFailed := by
  unfold countEvent
  split_ifs <;> first | rfl | (subst_vars; simp_all +decide)

theorem countEvent_getSucceded (c : poolMonitorCollector) (t : String) :
    (countEvent c t).getSucceded =
      if t = event.GetSucceeded then wrapInt64 (c.getSucceded + 1) else c.getSucceded := by
  unfold countEvent
  split_ifs <;> first | rfl | (subst_vars; simp_all +decide)

theorem countEvent_connReturned (c : poolMonitorCollector) (t : String) :
    (countEvent c t).connReturned =
      if t = event.ConnectionReturned then wrapInt64 (c.connReturned + 1)
      else c.connReturned := by
  unfold countEvent
  split_ifs <;> first | rfl | (subst_vars; simp_all +decide)

theorem countEvent_poolCleard (c : poolMonitorCollector) (t : String) :
    (countEvent c t).poolCleard =
      if t = event.PoolCleared then wrapInt64 (c.poolCleard + 1) else c.poolCleard := by
  unfold countEvent
  split_ifs <;> first | rfl | (subst_vars; simp_all +decide)

theorem countEvent_poolClosed (c : poolMonitorCollector) (t : String) :
    (countEvent c t).poolClosed =
      if t = event.PoolClosedEvent then wrapInt64 (c.poolClosed + 1) else c.poolClosed := by
  unfold countEvent
  split_ifs <;> first | rfl | (subst_vars; simp_all +decide)

theorem statsAfter_connClosed (c : poolMonitorCollector) (e : event.PoolEvent) :
    (statsAfter c e).connClosed =
      if e.Type_ = event.ConnectionClosed then wrapInt64 (c.connClosed + 1)
      else c.connClosed := by
  rw [← countEvent_connClosed]; unfold statsAfter storePoolOptions; split <;> rfl

theorem statsAfter_poolCreated (c : poolMonitorCollector) (e : event.PoolEvent) :
    (statsAfter c e).poolCreated =
      if e.Type_ = event.PoolCreated then wrapInt64 (c.poolCreated + 1)
      else c.poolCreated := by
  rw [← countEvent_poolCreated]; unfold statsAfter storePoolOptions; split <;> rfl

theorem statsAfter_connCreated (c : poolMonitorCollector) (e : event.PoolEvent) :
    (statsAfter c e).connCreated =
      if e.Type_ = event.ConnectionCreated then wrapInt64 (c.connCreated + 1)
      else c.connCreated := by
  rw [← countEvent_connCreated]; unfold statsAfter storePoolOptions; split <;> rfl

theorem statsAfter_getFailed (c : poolMonitorCollector) (e : event.PoolEvent) :
    (statsAfter c e).getFailed =
      if e.Type_ = event.GetFailed then wrapInt64 (c.getFailed + 1) else c.getFailed := by
  rw [← countEvent_getFailed]; unfold statsAfter storePoolOptions; split <;> rfl

theorem statsAfter_getSucceded (c : poolMonitorCollector) (e : event.PoolEvent) :
    (statsAfter c e).getSucceded =
      if e.Type_ = event.GetSucceeded then wrapInt64 (c.getSucceded + 1)
      else c.getSucceded := by
  rw [← countEvent_getSucceded]; unfold statsAfter storePoolOptions; split <;> rfl

theorem statsAfter_connReturned (c : poolMonitorCollector) (e : event.PoolEvent) :
    (statsAfter c e).connReturned =
      if e.Type_ = event.ConnectionReturned then wrapInt64 (c.connReturned + 1)
      else c.connReturned := by
  rw [← countEvent_connReturned]; unfold statsAfter storePoolOptions; split <;> rfl

theorem statsAfter_poolCleard (c : poolMonitorCollector) (e : event.PoolEvent) :
    (statsAfter c e).poolCleard =
      if e.Type_ = event.PoolCleared then wrapInt64 (c.poolCleard + 1)
      else c.poolCleard := by
  rw [← countEvent_poolCleard]; unfold statsAfter storePoolOptions; split <;> rfl

theorem statsAfter_poolClosed (c : poolMonitorCollector) (e : event.PoolEvent) :
    (statsAfter c e).poolClosed =
      if e.Type_ = event.PoolClosedEvent then wrapInt64 (c.poolClosed + 1)
      else c.poolClosed := by
  rw [← countEvent_poolClosed]; unfold statsAfter storePoolOptions; split <;> rfl

/-! ## Delivery through the pool hook -/

theorem quietPoolParent_none {W : Type} :
    quietPoolParent (none : Option (event.PoolMonitor (poolMonitorCollector × W))) := by
  intro p hp
  cases hp

theorem deliverPool_quiet {W : Type}
    (parent : Option (event.PoolMonitor (poolMonitorCollector × W)))
    (hq : quietPoolParent parent) (c : poolMonitorCollector) (w : W) (e : event.PoolEvent) :
    ∃ w1, deliverPool (poolMonitorCollector.PoolMonitor parent) (c, w) e
      = Except.ok (statsAfter c e, w1) := by
  cases parent with
  | none => exact ⟨w, rfl⟩
  | some p =>
    obtain ⟨f, hf, hkeep⟩ := hq p rfl
    obtain ⟨w1, hw1⟩ := hkeep (some e) c w
    refine ⟨w1, ?_⟩
    simp [deliverPool, poolMonitorCollector.PoolMonitor, callFunc, hf, hw1, updateStats_some]
    rfl

theorem deliverPoolAll_quiet {W : Type}
    (parent : Option (event.PoolMonitor (poolMonitorCollector × W)))
    (hq : quietPoolParent parent) (evs : List event.PoolEvent) :
    ∀ (c : poolMonitorCollector) (w : W),
      ∃ w1, deliverPoolAll (poolMonitorCollector.PoolMonitor parent) (c, w) evs
        = Except.ok (evs.foldl statsAfter c, w1) := by
  induction evs with
  | nil => intro c w; exact ⟨w, rfl⟩
  | cons e evs ih =>
    intro c w
    obtain ⟨w1, h1⟩ := deliverPool_quiet parent hq c w e
    obtain ⟨w2, h2⟩ := ih (statsAfter c e) w1
    refine ⟨w2, ?_⟩
    unfold deliverPoolAll at h2 ⊢
    rw [List.foldlM_cons, h1]
    exact h2

/-! ## Counting along a sequence -/

theorem fold_counter (p : poolMonitorCollector → Int) (k : String)
    (hstep : ∀ c e, p (statsAfter c e) = if e.Type_ = k then wrapInt64 (p c + 1) else p c)
    (evs : List event.PoolEvent) :
    ∀ c, wrapInt64 (p c) = p c →
      p (evs.foldl statsAfter c) = wrapInt64 (p c + (countKind k evs : Int)) := by
  induction evs with
  | nil => intro c hc; simp [countKind, hc]
  | cons e evs ih =>
    intro c hc
    have hc1 : wrapInt64 (p (statsAfter c e)) = p (statsAfter c e) := by
      rw [hstep]
      split_ifs
      · exact wrapInt64_of_isInt64 (isInt64_wrapInt64 _)
      · exact hc
    rw [List.foldl_cons, ih _ hc1, hstep]
    by_cases hk : e.Type_ = k
    · simp only [hk, if_true, countKind, List.countP_cons_of_pos, decide_True]
      rw [wrapInt64_wrap_add]
      congr 1
      push_cast
      ring
    · simp [hk, countKind]

theorem fold_counter_fresh (p : poolMonitorCollector → Int) (k : String)
    (hstep : ∀ c e, p (statsAfter c e) = if e.Type_ = k then wrapInt64 (p c + 1) else p c)
    (evs : List event.PoolEvent) (c : poolMonitorCollector) (hc : p c = 0)
    (hlt : countKind k evs < 2 ^ 63) :
    p (evs.foldl statsAfter c) = (countKind k evs : Int) := by
  rw [fold_counter p k hstep evs c (by rw [hc]; rfl), hc]
  exact wrapInt64_natCast_of_lt hlt

/-! ## Pool settings along a sequence -/

theorem poolSettings_statsAfter (c : poolMonitorCollector) (e : event.PoolEvent) :
    poolSettings (statsAfter c e) =
      match e.PoolOptions with
      | some o => (o.MaxPoolSize, o.MinPoolSize, o.WaitQueueTimeoutMS)
      | none => poolSettings c := by
  unfold statsAfter storePoolOptions poolSettings
  cases e.PoolOptions with
  | some o => rfl
  | none =>
    simp only
    unfold countEvent
    split_ifs <;> rfl

theorem lastPoolOptions_concat (evs : List event.PoolEvent) (e : event.PoolEvent) :
    lastPoolOptions (evs ++ [e]) =
      match e.PoolOptions with
      | some o => some o
      | none => lastPoolOptions evs := by
  unfold lastPoolOptions
  rw [List.filterMap_append]
  cases h : e.PoolOptions with
  | some o => simp [List.filterMap_cons, h]
  | none => simp [List.filterMap_cons, h]

theorem fold_poolSettings (evs : List event.PoolEvent) (c : poolMonitorCollector) :
    poolSettings (evs.foldl statsAfter c) =
      match lastPoolOptions evs with
      | some o => (o.MaxPoolSize, o.MinPoolSize, o.WaitQueueTimeoutMS)
      | none => poolSettings c := by
  induction evs using List.reverseRecOn with
  | nil => rfl
  | append_singleton evs e ih =>
    rw [List.foldl_append, List.foldl_cons, List.foldl_nil, poolSettings_statsAfter,
      lastPoolOptions_concat]
    cases h : e.PoolOptions with
    | some o => rfl
    | none => simpa using ih

/-! ## Delivery through the command hook -/

theorem quietCommandParent_none {Ctx W : Type} :
    quietCommandParent
      (none : Option (event.CommandMonitor Ctx (commandMonitorCollector × W))) := by
  intro p hp
  cases hp

theorem deliverCommand_quiet {Ctx W : Type}
    (parent : Option (event.CommandMonitor Ctx (commandMonitorCollector × W)))
    (hq : quietCommandParent parent) (ctx : Ctx) (c : commandMonitorCollector) (w : W)
    (e : CommandEvent) :
    ∃ w1, deliverCommand (commandMonitorCollector.CommandMonitor parent) ctx (c, w) e
      = Except.ok (commandAfter c e, w1) := by
  cases parent with
  | none => cases e <;> exact ⟨w, rfl⟩
  | some p =>
    obtain ⟨⟨f1, hf1, hk1⟩, ⟨f2, hf2, hk2⟩, ⟨f3, hf3, hk3⟩⟩ := hq p rfl
    cases e with
    | Started ev =>
      obtain ⟨w1, hw1⟩ := hk1 ctx (some ev) c w
      refine ⟨w1, ?_⟩
      simp [deliverCommand, commandMonitorCollector.CommandMonitor, callFunc, hf1, hw1,
        commandAfter, finishedOf]
      rfl
    | Succeeded ev =>
      obtain ⟨w1, hw1⟩ := hk2 ctx (some ev) c w
      refine ⟨w1, ?_⟩
      simp [deliverCommand, commandMonitorCollector.CommandMonitor, callFunc, hf2, hw1,
        commandAfter, finishedOf, succeededFinished]
      rfl
    | Failed ev =>
      obtain ⟨w1, hw1⟩ := hk3 ctx (some ev) c w
      refine ⟨w1, ?_⟩
      simp [deliverCommand, commandMonitorCollector.CommandMonitor, callFunc, hf3, hw1,
        commandAfter, finishedOf, failedFinished]
      rfl

theorem deliverCommandAll_quiet {Ctx W : Type}
    (parent : Option (event.CommandMonitor Ctx (commandMonitorCollector × W)))
    (hq : quietCommandParent parent) (ctx : Ctx) (evs : List CommandEvent) :
    ∀ (c : commandMonitorCollector) (w : W),
      ∃ w1, deliverCommandAll (commandMonitorCollector.CommandMonitor parent) ctx (c, w) evs
        = Except.ok (evs.foldl commandAfter c, w1) := by
  induction evs with
  | nil => intro c w; exact ⟨w, rfl⟩
  | cons e evs ih =>
    intro c w
    obtain ⟨w1, h1⟩ := deliverCommand_quiet parent hq ctx c w e
    obtain ⟨w2, h2⟩ := ih (commandAfter c e) w1
    refine ⟨w2, ?_⟩
    unfold deliverCommandAll at h2 ⊢
    rw [List.foldlM_cons, h1]
    exact h2

theorem lastDuration_concat (evs : List CommandEvent) (e : CommandEvent) :
    lastDuration (evs ++ [e]) =
      match finishedOf e with
      | some fin => some fin.DurationNanos
      | none => lastDuration evs := by
  unfold lastDuration
  rw [List.filterMap_append]
  cases h : finishedOf e with
  | some fin => simp [List.filterMap_cons, h]
  | none => simp [List.filterMap_cons, h]

theorem fold_commandDuration (evs : List CommandEvent) (c : commandMonitorCollector) :
    (evs.foldl commandAfter c).commandDurationNs =
      (lastDuration evs).getD c.commandDurationNs := by
  induction evs using List.reverseRecOn with
  | nil => rfl
  | append_singleton evs e ih =>
    rw [List.foldl_append, List.foldl_cons, List.foldl_nil, lastDuration_concat]
    unfold commandAfter
    cases h : finishedOf e with
    | some fin => rfl
    | none => simpa using ih

theorem fold_commandDesc (evs : List CommandEvent) (c : commandMonitorCollector) :
    (evs.foldl commandAfter c).commandDurationNsDesc = c.commandDurationNsDesc := by
  induction evs generalizing c with
  | nil => rfl
  | cons e evs ih =>
    rw [List.foldl_cons, ih]
    unfold commandAfter
    cases finishedOf e <;> rfl

/-! ## Conversion to `float64` -/

theorem bitLength_le (fuel : Nat) : ∀ n k, n < 2 ^ k → bitLength fuel n ≤ k := by
  induction fuel with
  | zero => intro n k _; exact Nat.zero_le _
  | succ fuel ih =>
    intro n k h
    unfold bitLength
    split_ifs with h0
    · exact Nat.zero_le _
    · cases k with
      | zero => omega
      | succ k =>
        have h2 : n / 2 < 2 ^ k := by
          rw [pow_succ] at h
          omega
        exact Nat.succ_le_succ (ih _ _ h2)

theorem float64_eq_self (x : Int) (h : x.natAbs ≤ 2 ^ 53) : float64 x = x := by
  rcases Nat.lt_or_eq_of_le h with hlt | heq
  · have hb : bitLength 64 x.natAbs - 53 = 0 := by
      have := bitLength_le 64 _ _ hlt
      omega
    unfold float64
    simp only [hb, pow_zero, Nat.div_one, Nat.mod_one, mul_zero, mul_one]
    have hif : ¬ (1 < 0 ∨ (0 = 1 ∧ x.natAbs % 2 = 1)) := by omega
    rw [if_neg hif]
    exact Int.sign_mul_natAbs x
  · have hx : x = 2 ^ 53 ∨ x = -(2 ^ 53) := by omega
    rcases hx with hx | hx <;> subst hx <;> decide

/-! ## Descriptors are never touched -/

theorem Describe_statsAfter (c : poolMonitorCollector) (e : event.PoolEvent) :
    (statsAfter c e).Describe = c.Describe := by
  unfold statsAfter storePoolOptions countEvent poolMonitorCollector.Describe
  split <;> split_ifs <;> rfl

theorem fold_Describe (evs : List event.PoolEvent) (c : poolMonitorCollector) :
    (evs.foldl statsAfter c).Describe = c.Describe := by
  induction evs generalizing c with
  | nil => rfl
  | cons e evs ih => rw [List.foldl_cons, ih, Describe_statsAfter]

theorem poolReachable_eq_fold {c : poolMonitorCollector} (h : poolReachable c) :
    ∃ evs, c = List.foldl statsAfter NewPoolMonitorCollector evs := by
  obtain ⟨evs, hevs⟩ := h
  obtain ⟨w1, h1⟩ := deliverPoolAll_quiet none quietPoolParent_none evs NewPoolMonitorCollector ()
  rw [hevs] at h1
  injection h1 with h2
  exact ⟨evs, congrArg Prod.fst h2⟩

theorem commandReachable_eq_fold {c : commandMonitorCollector} (h : commandReachable c) :
    ∃ evs, c = List.foldl commandAfter NewCommandMonitorCollector evs := by
  obtain ⟨evs, hevs⟩ := h
  obtain ⟨w1, h1⟩ :=
    deliverCommandAll_quiet none quietCommandParent_none () evs NewCommandMonitorCollector ()
  rw [hevs] at h1
  injection h1 with h2
  exact ⟨evs, congrArg Prod.fst h2⟩

theorem Describe_of_poolReachable {c : poolMonitorCollector} (h : poolReachable c) :
    c.Describe = NewPoolMonitorCollector.Describe := by
  obtain ⟨evs, rfl⟩ := poolReachable_eq_fold h
  exact fold_Describe evs _

theorem Describe_of_commandReachable {c : commandMonitorCollector} (h : commandReachable c) :
    c.Describe = NewCommandMonitorCollector.Describe := by
  obtain ⟨evs, rfl⟩ := commandReachable_eq_fold h
  unfold commandMonitorCollector.Describe
  rw [fold_commandDesc]

/-! ## The counters as a list -/

theorem counters_statsAfter (c : poolMonitorCollector) (e : event.PoolEvent) :
    counters (statsAfter c e) =
      List.zipWith (fun k v => if e.Type_ = k then wrapInt64 (v + 1) else v) kinds
        (counters c) := by
  simp only [counters, kinds, List.zipWith_cons_cons, List.zipWith_nil_right,
    statsAfter_connClosed, statsAfter_poolCreated, statsAfter_connCreated,
    statsAfter_getFailed, statsAfter_getSucceded, statsAfter_connReturned,
    statsAfter_poolCleard, statsAfter_poolClosed]

theorem countEvent_of_not_mem (c : poolMonitorCollector) (t : String) (h : t ∉ kinds) :
    countEvent c t = c := by
  simp only [kinds, List.mem_cons, List.mem_singleton, List.not_mem_nil, or_false,
    not_or] at h
  obtain ⟨h1, h2, h3, h4, h5, h6, h7, h8⟩ := h
  simp [countEvent, h1, h2, h3, h4, h5, h6, h7, h8]

theorem counters_fold_fresh (evs : List event.PoolEvent)
    (hlt : ∀ k, countKind k evs < 2 ^ 63) :
    counters (evs.foldl statsAfter NewPoolMonitorCollector) =
      kinds.map fun k => (countKind k evs : Int) := by
  simp only [counters, kinds, List.map_cons, List.map_nil]
  rw [fold_counter_fresh (fun c => c.connClosed) _ statsAfter_connClosed evs _ rfl (hlt _),
    fold_counter_fresh (fun c => c.poolCreated) _ statsAfter_poolCreated evs _ rfl (hlt _),
    fold_counter_fresh (fun c => c.connCreated) _ statsAfter_connCreated evs _ rfl (hlt _),
    fold_counter_fresh (fun c => c.getFailed) _ statsAfter_getFailed evs _ rfl (hlt _),
    fold_counter_fresh (fun c => c.getSucceded) _ statsAfter_getSucceded evs _ rfl (hlt _),
    fold_counter_fresh (fun c => c.connReturned) _ statsAfter_connReturned evs _ rfl (hlt _),
    fold_counter_fresh (fun c => c.poolCleard) _ statsAfter_poolCleard evs _ rfl (hlt _),
    fold_counter_fresh (fun c => c.poolClosed) _ statsAfter_poolClosed evs _ rfl (hlt _)]

theorem countKind_append (k : String) (xs ys : List event.PoolEvent) :
    countKind k (xs ++ ys) = countKind k xs + countKind k ys := by
  unfold countKind
  exact List.countP_append _ xs ys

theorem zipWith_step_le (t : String) :
    ∀ (ks : List String) (vs : List Int), ks.length = vs.length →
      (∀ v ∈ vs, isInt64 v) →
      (∀ kv ∈ ks.zip vs, kv.1 = t → kv.2 < maxInt64) →
      List.Forall₂ (fun v v1 => v ≤ v1) vs
        (List.zipWith (fun k v => if t = k then wrapInt64 (v + 1) else v) ks vs) ∧
      ∀ v ∈ List.zipWith (fun k v => if t = k then wrapInt64 (v + 1) else v) ks vs,
        isInt64 v := by
  intro ks
  induction ks with
  | nil =>
    intro vs hlen _ _
    cases vs with
    | nil => exact ⟨List.Forall₂.nil, by simp⟩
    | cons v vs => simp at hlen
  | cons k ks ih =>
    intro vs hlen hrange hmax
    cases vs with
    | nil => simp at hlen
    | cons v vs =>
      have hv : isInt64 v := hrange v (List.mem_cons_self _ _)
      obtain ⟨ih1, ih2⟩ := ih vs (by simpa using hlen)
        (fun x hx => hrange x (List.mem_cons_of_mem _ hx))
        (fun kv hkv => hmax kv (by rw [List.zip_cons_cons]; exact List.mem_cons_of_mem _ hkv))
      have hstep : v ≤ (if t = k then wrapInt64 (v + 1) else v) ∧
          isInt64 (if t = k then wrapInt64 (v + 1) else v) := by
        split_ifs with htk
        · have hlt : v < maxInt64 :=
            hmax (k, v) (by rw [List.zip_cons_cons]; exact List.mem_cons_self _ _) htk.symm
          rw [wrapInt64_succ_of_lt hv hlt]
          refine ⟨by omega, ?_⟩
          unfold isInt64 at hv ⊢
          omega
        · exact ⟨le_refl _, hv⟩
      rw [List.zipWith_cons_cons]
      refine ⟨List.Forall₂.cons hstep.1 ih1, ?_⟩
      intro x hx
      rcases List.mem_cons.mp hx with hx | hx
      · rw [hx]; exact hstep.2
      · exact ih2 x hx

theorem forall₂_le_of_map_le (ks : List String) (f g : String → Int)
    (h : ∀ k, f k ≤ g k) : List.Forall₂ (fun v v1 => v ≤ v1) (ks.map f) (ks.map g) := by
  induction ks with
  | nil => exact List.Forall₂.nil
  | cons k ks ih => exact List.Forall₂.cons (h k) ih

/-! ## The claims -/

/-- Claim C1 (exact counting). Whatever pool events are delivered, in whatever order,
through the hook of a fresh pool collector (the parent hook absent or quiet), with fewer
than 2^63 events of any one kind, the delivery returns and each of the eight counters ends
equal to the number of delivered events of its kind. -/
theorem exact_counting {W : Type}
    (parent : Option (event.PoolMonitor (poolMonitorCollector × W)))
    (hq : quietPoolParent parent) (w : W) (evs : List event.PoolEvent)
    (hlt : ∀ k, countKind k evs < 2 ^ 63) :
    ∃ c w1,
      deliverPoolAll (poolMonitorCollector.PoolMonitor parent) (NewPoolMonitorCollector, w) evs
        = Except.ok (c, w1) ∧
      c.connClosed = countKind event.ConnectionClosed evs ∧
      c.poolCreated = countKind event.PoolCreated evs ∧
      c.connCreated = countKind event.ConnectionCreated evs ∧
      c.getFailed = countKind event.GetFailed evs ∧
      c.getSucceded = countKind event.GetSucceeded evs ∧
      c.connReturned = countKind event.ConnectionReturned evs ∧
      c.poolCleard = countKind event.PoolCleared evs ∧
      c.poolClosed = countKind event.PoolClosedEvent evs := by
  obtain ⟨w1, h⟩ := deliverPoolAll_quiet parent hq evs NewPoolMonitorCollector w
  exact ⟨_, w1, h,
    fold_counter_fresh (fun c => c.connClosed) _ statsAfter_connClosed evs _ rfl (hlt _),
    fold_counter_fresh (fun c => c.poolCreated) _ statsAfter_poolCreated evs _ rfl (hlt _),
    fold_counter_fresh (fun c => c.connCreated) _ statsAfter_connCreated evs _ rfl (hlt _),
    fold_counter_fresh (fun c => c.getFailed) _ statsAfter_getFailed evs _ rfl (hlt _),
    fold_counter_fresh (fun c => c.getSucceded) _ statsAfter_getSucceded evs _ rfl (hlt _),
    fold_counter_fresh (fun c => c.connReturned) _ statsAfter_connReturned evs _ rfl (hlt _),
    fold_counter_fresh (fun c => c.poolCleard) _ statsAfter_poolCleard evs _ rfl (hlt _),
    fold_counter_fresh (fun c => c.poolClosed) _ statsAfter_poolClosed evs _ rfl (hlt _)⟩

/-- The end-to-end scenario (pool created, connection created, connection closed) through
the hook without parent: the counters end at 1, 1, 1 and 0 for the other five. -/
theorem exact_counting_witness :
    quietPoolParent (none : Option (event.PoolMonitor (poolMonitorCollector × Unit))) ∧
    (∀ k, countKind k scenarioEvents < 2 ^ 63) ∧
    ∃ c w1,
      deliverPoolAll (poolMonitorCollector.PoolMonitor none) (NewPoolMonitorCollector, ())
        scenarioEvents = Except.ok (c, w1) ∧
      c.connClosed = 1 ∧ c.poolCreated = 1 ∧ c.connCreated = 1 ∧ c.getFailed = 0 ∧
      c.getSucceded = 0 ∧ c.connReturned = 0 ∧ c.poolCleard = 0 ∧ c.poolClosed = 0 := by
  have hlt : ∀ k, countKind k scenarioEvents < 2 ^ 63 := fun k =>
    lt_of_le_of_lt (List.countP_le_length _) (by decide)
  obtain ⟨c, w1, h, h1, h2, h3, h4, h5, h6, h7, h8⟩ :=
    exact_counting none quietPoolParent_none () scenarioEvents hlt
  exact ⟨quietPoolParent_none, hlt, c, w1, h, h1.trans (by decide), h2.trans (by decide),
    h3.trans (by decide), h4.trans (by decide), h5.trans (by decide), h6.trans (by decide),
    h7.trans (by decide), h8.trans (by decide)⟩

/-- Claim C2 (pool settings overwrite). After any sequence of pool events delivered through
the hook of a fresh pool collector (the parent hook absent or quiet), the triple
(maxPoolSize, minPoolSize, waitQueueTimeoutMS) is the triple of the last event that carries
pool settings, all three fields from that one event, and (0, 0, 0) when no event carries
any. -/
theorem pool_settings_overwrite {W : Type}
    (parent : Option (event.PoolMonitor (poolMonitorCollector × W)))
    (hq : quietPoolParent parent) (w : W) (evs : List event.PoolEvent) :
    ∃ c w1,
      deliverPoolAll (poolMonitorCollector.PoolMonitor parent) (NewPoolMonitorCollector, w) evs
        = Except.ok (c, w1) ∧
      (c.maxPoolSize, c.minPoolSize, c.waitQueueTimeoutMS) =
        match lastPoolOptions evs with
        | some o => (o.MaxPoolSize, o.MinPoolSize, o.WaitQueueTimeoutMS)
        | none => (0, 0, 0) := by
  obtain ⟨w1, h⟩ := deliverPoolAll_quiet parent hq evs NewPoolMonitorCollector w
  exact ⟨_, w1, h, fold_poolSettings evs NewPoolMonitorCollector⟩

/-- The settings (10, 2, 500) and then (20, 5, 1000), each on a pool-created event: the
collector ends with (20, 5, 1000). -/
theorem pool_settings_overwrite_witness :
    quietPoolParent (none : Option (event.PoolMonitor (poolMonitorCollector × Unit))) ∧
    ∃ c w1,
      deliverPoolAll (poolMonitorCollector.PoolMonitor none) (NewPoolMonitorCollector, ())
        [poolEventOf event.PoolCreated
           (some { MaxPoolSize := 10, MinPoolSize := 2, WaitQueueTimeoutMS := 500 }),
         poolEventOf event.PoolCreated
           (some { MaxPoolSize := 20, MinPoolSize := 5, WaitQueueTimeoutMS := 1000 })]
        = Except.ok (c, w1) ∧
      (c.maxPoolSize, c.minPoolSize, c.waitQueueTimeoutMS) = (20, 5, 1000) :=
  ⟨quietPoolParent_none, pool_settings_overwrite none quietPoolParent_none () _⟩

/-- Claim C3 (last write wins). After any sequence of Started, Succeeded and Failed events
delivered through the hook of a command collector (the parent hook absent or quiet), the
delivery returns and the stored duration is that of the last Succeeded-or-Failed event of
the sequence; with no such event it is what it was before, which is 0 for a fresh
collector; and a Started event alone leaves the collector as it was. -/
theorem last_write_wins {Ctx W : Type}
    (parent : Option (event.CommandMonitor Ctx (commandMonitorCollector × W)))
    (hq : quietCommandParent parent) (ctx : Ctx) (w : W) (c0 : commandMonitorCollector)
    (evs : List CommandEvent) :
    (∃ c w1,
      deliverCommandAll (commandMonitorCollector.CommandMonitor parent) ctx (c0, w) evs
        = Except.ok (c, w1) ∧
      (∀ d, lastDuration evs = some d → c.commandDurationNs = d) ∧
      (lastDuration evs = none → c.commandDurationNs = c0.commandDurationNs)) ∧
    (∀ ev, ∃ w1,
      deliverCommand (commandMonitorCollector.CommandMonitor parent) ctx (c0, w)
        (CommandEvent.Started ev) = Except.ok (c0, w1)) ∧
    NewCommandMonitorCollector.commandDurationNs = 0 := by
  refine ⟨?_, ?_, rfl⟩
  · obtain ⟨w1, h⟩ := deliverCommandAll_quiet parent hq ctx evs c0 w
    refine ⟨_, w1, h, ?_, ?_⟩
    · intro d hd
      rw [fold_commandDuration, hd]
      rfl
    · intro hd
      rw [fold_commandDuration, hd]
      rfl
  · intro ev
    exact deliverCommand_quiet parent hq ctx c0 w (CommandEvent.Started ev)

/-- A Succeeded event of 5 ns, a Started event, a Failed event of 7 ns and a Started event,
through the hook without parent of a fresh collector: 7 is stored. -/
theorem last_write_wins_witness :
    quietCommandParent
      (none : Option (event.CommandMonitor Unit (commandMonitorCollector × Unit))) ∧
    ∃ c w1,
      deliverCommandAll (commandMonitorCollector.CommandMonitor none) ()
        (NewCommandMonitorCollector, ())
        [CommandEvent.Succeeded { CommandFinishedEvent := finishedOfDuration 5, Reply := "" },
         CommandEvent.Started startedEvent,
         CommandEvent.Failed { CommandFinishedEvent := finishedOfDuration 7, Failure := "" },
         CommandEvent.Started startedEvent] = Except.ok (c, w1) ∧
      c.commandDurationNs = 7 := by
  obtain ⟨⟨c, w1, h, hlast, _⟩, _⟩ :=
    last_write_wins none quietCommandParent_none () () NewCommandMonitorCollector
      [CommandEvent.Succeeded { CommandFinishedEvent := finishedOfDuration 5, Reply := "" },
       CommandEvent.Started startedEvent,
       CommandEvent.Failed { CommandFinishedEvent := finishedOfDuration 7, Failure := "" },
       CommandEvent.Started startedEvent]
  exact ⟨quietCommandParent_none, c, w1, h, hlast 7 rfl⟩

/-- Claim C4 as stated fails for present parents that do not leave the event and the
collector alone.  With the collector's own hook as parent, one checkout-succeeded event is
counted twice, against once without parent.  With a parent that marks the event it is
handed (`e.Type = "seen"`, `e.PoolOptions = nil`), a checkout-succeeded event carrying the
settings (100, 0, 0) leaves the collector as it was, against one checkout and the settings
stored without parent.  With a parent that rounds the duration of the event it is handed,
1999 ns is stored as 1000, against 1999 without parent. -/
theorem parent_changes_collector_state :
    deliverPool
        (poolMonitorCollector.PoolMonitor
          (some (poolMonitorCollector.PoolMonitor
            (none : Option (event.PoolMonitor (poolMonitorCollector × Unit))))))
        (NewPoolMonitorCollector, ()) (poolEventOf event.GetSucceeded none)
      = Except.ok ({ NewPoolMonitorCollector with getSucceded := 2 }, ()) ∧
    deliverPool
        (poolMonitorCollector.PoolMonitor
          (none : Option (event.PoolMonitor (poolMonitorCollector × Unit))))
        (NewPoolMonitorCollector, ()) (poolEventOf event.GetSucceeded none)
      = Except.ok ({ NewPoolMonitorCollector with getSucceded := 1 }, ()) ∧
    deliverPool (poolMonitorCollector.PoolMonitor (some markingParent))
        (NewPoolMonitorCollector, ())
        (poolEventOf event.GetSucceeded
          (some { MaxPoolSize := 100, MinPoolSize := 0, WaitQueueTimeoutMS := 0 }))
      = Except.ok (NewPoolMonitorCollector, ()) ∧
    deliverPool
        (poolMonitorCollector.PoolMonitor
          (none : Option (event.PoolMonitor (poolMonitorCollector × Unit))))
        (NewPoolMonitorCollector, ())
        (poolEventOf event.GetSucceeded
          (some { MaxPoolSize := 100, MinPoolSize := 0, WaitQueueTimeoutMS := 0 }))
      = Except.ok ({ NewPoolMonitorCollector with getSucceded := 1, maxPoolSize := 100 }, ()) ∧
    deliverCommand (commandMonitorCollector.CommandMonitor (some roundingParent)) ()
        (NewCommandMonitorCollector, ())
        (CommandEvent.Succeeded
          { CommandFinishedEvent := finishedOfDuration 1999, Reply := "" })
      = Except.ok ({ NewCommandMonitorCollector with commandDurationNs := 1000 }, ()) ∧
    deliverCommand
        (commandMonitorCollector.CommandMonitor
          (none : Option (event.CommandMonitor Unit (commandMonitorCollector × Unit)))) ()
        (NewCommandMonitorCollector, ())
        (CommandEvent.Succeeded
          { CommandFinishedEvent := finishedOfDuration 1999, Reply := "" })
      = Except.ok ({ NewCommandMonitorCollector with commandDurationNs := 1999 }, ()) :=
  ⟨rfl, rfl, rfl, rfl, rfl, rfl⟩

/-- Claim C4, amended (chaining, parent first and exactly once). With a parent present
whose corresponding entry point is set, one event driven through the returned hook runs
that entry point once, on a pointer to that same event and on the state as it is before
the collector's own update; no other parent entry point matters.  If the parent panics,
the panic is the outcome and no own update is made.  If it returns, the own update is
applied to the collector and to the event as the parent left them, and the rest of the
state is what the parent left; so a parent that leaves the event and the collector as it
found them gives the collector state that an absent parent gives.  With the parent absent
the update is made on the event as delivered and the rest of the state is untouched. -/
theorem chaining_parent_first (Ctx W : Type) :
    (∀ (p : event.PoolMonitor (poolMonitorCollector × W)) f (e : event.PoolEvent) c w e1 c1 w1,
      p.Event = some f → f (some e) (c, w) = Except.ok (some e1, (c1, w1)) →
      ∃ c2, c1.updateStats (some e1) = Except.ok c2 ∧
        deliverPool (poolMonitorCollector.PoolMonitor (some p)) (c, w) e
          = Except.ok (c2, w1) ∧
        (e1 = e → c1 = c →
          deliverPool (poolMonitorCollector.PoolMonitor none) (c, w) e = Except.ok (c2, w))) ∧
    (∀ (p : event.PoolMonitor (poolMonitorCollector × W)) f (e : event.PoolEvent) s err,
      p.Event = some f → f (some e) s = Except.error err →
      deliverPool (poolMonitorCollector.PoolMonitor (some p)) s e = Except.error err) ∧
    (∀ (e : event.PoolEvent) (c : poolMonitorCollector) (w : W),
      ∃ c2, c.updateStats (some e) = Except.ok c2 ∧
        deliverPool (poolMonitorCollector.PoolMonitor none) (c, w) e = Except.ok (c2, w)) ∧
    (∀ (p : event.CommandMonitor Ctx (commandMonitorCollector × W)) f ctx ev s e1 s1,
      p.Started = some f → f ctx (some ev) s = Except.ok (e1, s1) →
      deliverCommand (commandMonitorCollector.CommandMonitor (some p)) ctx s
        (CommandEvent.Started ev) = Except.ok s1) ∧
    (∀ (p : event.CommandMonitor Ctx (commandMonitorCollector × W)) f ctx ev s err,
      p.Started = some f → f ctx (some ev) s = Except.error err →
      deliverCommand (commandMonitorCollector.CommandMonitor (some p)) ctx s
        (CommandEvent.Started ev) = Except.error err) ∧
    (∀ (p : event.CommandMonitor Ctx (commandMonitorCollector × W)) f ctx ev s ev1 c1 w1,
      p.Succeeded = some f → f ctx (some ev) s = Except.ok (some ev1, (c1, w1)) →
      deliverCommand (commandMonitorCollector.CommandMonitor (some p)) ctx s
        (CommandEvent.Succeeded ev)
        = Except.ok (c1.updateCommandStats ev1.CommandFinishedEvent, w1)) ∧
    (∀ (p : event.CommandMonitor Ctx (commandMonitorCollector × W)) f ctx ev s err,
      p.Succeeded = some f → f ctx (some ev) s = Except.error err →
      deliverCommand (commandMonitorCollector.CommandMonitor (some p)) ctx s
        (CommandEvent.Succeeded ev) = Except.error err) ∧
    (∀ (p : event.CommandMonitor Ctx (commandMonitorCollector × W)) f ctx ev s ev1 c1 w1,
      p.Failed = some f → f ctx (some ev) s = Except.ok (some ev1, (c1, w1)) →
      deliverCommand (commandMonitorCollector.CommandMonitor (some p)) ctx s
        (CommandEvent.Failed ev)
        = Except.ok (c1.updateCommandStats ev1.CommandFinishedEvent, w1)) ∧
    (∀ (p : event.CommandMonitor Ctx (commandMonitorCollector × W)) f ctx ev s err,
      p.Failed = some f → f ctx (some ev) s = Except.error err →
      deliverCommand (commandMonitorCollector.CommandMonitor (some p)) ctx s
        (CommandEvent.Failed ev) = Except.error err) ∧
    (∀ (ctx : Ctx) ev (c : commandMonitorCollector) (w : W),
      deliverCommand (commandMonitorCollector.CommandMonitor none) ctx (c, w)
        (CommandEvent.Started ev) = Except.ok (c, w)) ∧
    (∀ (ctx : Ctx) ev (c : commandMonitorCollector) (w : W),
      deliverCommand (commandMonitorCollector.CommandMonitor none) ctx (c, w)
        (CommandEvent.Succeeded ev)
        = Except.ok (c.updateCommandStats ev.CommandFinishedEvent, w)) ∧
    (∀ (ctx : Ctx) ev (c : commandMonitorCollector) (w : W),
      deliverCommand (commandMonitorCollector.CommandMonitor none) ctx (c, w)
        (CommandEvent.Failed ev)
        = Except.ok (c.updateCommandStats ev.CommandFinishedEvent, w)) := by
  refine ⟨?_, ?_, ?_, ?_, ?_, ?_, ?_, ?_, ?_, ?_, ?_, ?_⟩
  · intro p f e c w e1 c1 w1 hp hf
    refine ⟨statsAfter c1 e1, rfl, ?_, ?_⟩
    · simp [deliverPool, poolMonitorCollector.PoolMonitor, callFunc, hp, hf, updateStats_some]
      rfl
    · intro he hc
      rw [he, hc]
      rfl
  · intro p f e s err hp hf
    simp [deliverPool, poolMonitorCollector.PoolMonitor, callFunc, hp, hf]
    rfl
  · intro e c w
    exact ⟨statsAfter c e, rfl, rfl⟩
  · intro p f ctx ev s e1 s1 hp hf
    simp [deliverCommand, commandMonitorCollector.CommandMonitor, callFunc, hp, hf]
    rfl
  · intro p f ctx ev s err hp hf
    simp [deliverCommand, commandMonitorCollector.CommandMonitor, callFunc, hp, hf]
    rfl
  · intro p f ctx ev s ev1 c1 w1 hp hf
    simp [deliverCommand, commandMonitorCollector.CommandMonitor, callFunc, hp, hf,
      succeededFinished]
    rfl
  · intro p f ctx ev s err hp hf
    simp [deliverCommand, commandMonitorCollector.CommandMonitor, callFunc, hp, hf]
    rfl
  · intro p f ctx ev s ev1 c1 w1 hp hf
    simp [deliverCommand, commandMonitorCollector.CommandMonitor, callFunc, hp, hf,
      failedFinished]
    rfl
  · intro p f ctx ev s err hp hf
    simp [deliverCommand, commandMonitorCollector.CommandMonitor, callFunc, hp, hf]
    rfl
  · intro ctx ev c w; rfl
  · intro ctx ev c w; rfl
  · intro ctx ev c w; rfl

/-- One checkout-succeeded event through the hook that wraps the recording parent, on a
fresh collector: the parent has logged exactly one call, for that event, and saw the
counter still at 0; the collector then counts 1, as it does without parent. -/
theorem chaining_parent_first_witness :
    ∃ c2,
      NewPoolMonitorCollector.updateStats (some (poolEventOf event.GetSucceeded none))
        = Except.ok c2 ∧
      deliverPool (poolMonitorCollector.PoolMonitor (some recordingParent))
        (NewPoolMonitorCollector, []) (poolEventOf event.GetSucceeded none)
        = Except.ok (c2, [("ConnectionCheckedOut", 0)]) ∧
      deliverPool (poolMonitorCollector.PoolMonitor none)
        (NewPoolMonitorCollector, ([] : List (String × Int)))
        (poolEventOf event.GetSucceeded none)
        = Except.ok (c2, []) ∧
      c2.getSucceded = 1 := by
  obtain ⟨c2, h1, h2, h3⟩ :=
    (chaining_parent_first Unit (List (String × Int))).1 recordingParent _
      (poolEventOf event.GetSucceeded none) NewPoolMonitorCollector []
      (poolEventOf event.GetSucceeded none) NewPoolMonitorCollector
      [("ConnectionCheckedOut", 0)] rfl rfl
  refine ⟨c2, h1, h2, h3 rfl rfl, ?_⟩
  rw [updateStats_some] at h1
  cases h1
  decide

/-- Claim C10, at the failing input. The hook that wraps a parent whose `Started` and
`Failed` are unset panics on a Started event and on a Failed event, and the Failed event's
duration is not recorded; the pool hook that wraps a parent whose `Event` is unset panics
on every event and does not apply the pool update.  Through the entry point that the
parent has set, the same command hook works: the parent runs once and the duration is
recorded. -/
theorem unset_parent_entry_panics :
    deliverCommand (commandMonitorCollector.CommandMonitor (some succeededOnlyParent)) ()
      (NewCommandMonitorCollector, 0) (CommandEvent.Started startedEvent)
      = Except.error GoPanic.nilDereference ∧
    deliverCommand (commandMonitorCollector.CommandMonitor (some succeededOnlyParent)) ()
      (NewCommandMonitorCollector, 0)
      (CommandEvent.Failed { CommandFinishedEvent := finishedOfDuration 7, Failure := "" })
      = Except.error GoPanic.nilDereference ∧
    deliverPool (poolMonitorCollector.PoolMonitor (some emptyPoolParent))
      (NewPoolMonitorCollector, 0) (poolEventOf event.GetSucceeded none)
      = Except.error GoPanic.nilDereference ∧
    deliverCommand (commandMonitorCollector.CommandMonitor (some succeededOnlyParent)) ()
      (NewCommandMonitorCollector, 0)
      (CommandEvent.Succeeded { CommandFinishedEvent := finishedOfDuration 5, Reply := "" })
      = Except.ok (NewCommandMonitorCollector.updateCommandStats (finishedOfDuration 5), 1) :=
  ⟨rfl, rfl, rfl, rfl⟩

/-- Claim C5 (announced set equals emitted set). In every state a pool collector's Collect
emits eleven samples whose descriptors are, position by position, the eleven descriptors
of Describe; the first eight are counters and carry the `float64` conversion of the eight
counter fields, the last three are gauges and carry that of the three pool settings; and
Collect leaves the collector unchanged.  In every reachable state the eleven descriptors
are pairwise different.  The conversion is exact up to magnitude 2^53.  The command
collector's Collect emits one gauge sample, for the one descriptor of its Describe,
carrying the conversion of `commandDurationNs`, and leaves the collector unchanged. -/
theorem announced_equals_emitted :
    (∀ c : poolMonitorCollector,
      c.Collect.1.map (fun m => m.desc) = c.Describe ∧
      c.Collect.1.length = 11 ∧ c.Describe.length = 11 ∧
      c.Collect.1.map (fun m => m.valueType) =
        [ValueType.CounterValue, ValueType.CounterValue, ValueType.CounterValue,
         ValueType.CounterValue, ValueType.CounterValue, ValueType.CounterValue,
         ValueType.CounterValue, ValueType.CounterValue,
         ValueType.GaugeValue, ValueType.GaugeValue, ValueType.GaugeValue] ∧
      c.Collect.1.map (fun m => m.value) =
        [float64 c.connClosed, float64 c.poolCreated, float64 c.connCreated,
         float64 c.getFailed, float64 c.getSucceded, float64 c.connReturned,
         float64 c.poolCleard, float64 c.poolClosed,
         float64 c.maxPoolSize, float64 c.minPoolSize, float64 c.waitQueueTimeoutMS] ∧
      c.Collect.2 = c) ∧
    (∀ c : poolMonitorCollector, poolReachable c →
      c.Describe.Nodup ∧ (c.Collect.1.map fun m => m.desc).Nodup) ∧
    (∀ x : Int, x.natAbs ≤ 2 ^ 53 → float64 x = x) ∧
    (∀ c : commandMonitorCollector,
      c.Collect.1 =
        [{ desc := c.commandDurationNsDesc, valueType := ValueType.GaugeValue,
           value := float64 c.commandDurationNs }] ∧
      c.Collect.1.map (fun m => m.desc) = c.Describe ∧
      c.Describe.length = 1 ∧
      c.Collect.2 = c) := by
  refine ⟨fun c => ⟨rfl, rfl, rfl, rfl, rfl, rfl⟩, ?_, float64_eq_self,
    fun c => ⟨rfl, rfl, rfl, rfl⟩⟩
  intro c hc
  have hd : c.Describe.Nodup := by
    rw [Describe_of_poolReachable hc]
    decide
  exact ⟨hd, hd⟩

/-- The state after the end-to-end scenario is reachable; there Collect reports the
counters 1, 1, 1, 0, 0, 0, 0, 0 and the gauges 100, 0, 0, under eleven different
descriptors. -/
theorem announced_equals_emitted_witness :
    poolReachable (scenarioEvents.foldl statsAfter NewPoolMonitorCollector) ∧
    ((scenarioEvents.foldl statsAfter NewPoolMonitorCollector).Collect.1.map
      fun m => m.desc).Nodup ∧
    ((scenarioEvents.foldl statsAfter NewPoolMonitorCollector).Collect.1.map
      fun m => (m.desc.fqName, m.value)) =
      [("go_mongo_connection_closed", 1), ("go_mongo_pool_created", 1),
       ("go_mongo_connection_created", 1), ("go_mongo_get_failed", 0),
       ("go_mongo_get_succeeded", 0), ("go_mongo_connection_returnd", 0),
       ("go_mongo_pool_cleared", 0), ("go_mongo_pool_closed", 0),
       ("go_mongo_max_pool_size", 100), ("go_mongo_min_pool_size", 0),
       ("go_mongo_wait_queue_timeout_ms", 0)] ∧
    float64 100 = 100 :=
  ⟨⟨scenarioEvents, rfl⟩,
   (announced_equals_emitted.2.1 _ ⟨scenarioEvents, rfl⟩).2,
   by decide,
   announced_equals_emitted.2.2.1 100 (by decide)⟩

/-- Claim C6 (fixed, collision-free metric names). In every reachable state Describe of a
pool collector yields the eleven descriptors of a fresh one, in order, named as listed;
Describe of a command collector yields the single name `go_mongo_command_duration_ns`;
every name is `go_mongo_` followed by its suffix; the twelve names are pairwise different;
and every name the test looks for is the name of a sample that the two collectors emit. -/
theorem fixed_metric_names :
    (∀ c : poolMonitorCollector, poolReachable c →
      c.Describe = NewPoolMonitorCollector.Describe ∧ c.Collect.2.Describe = c.Describe) ∧
    NewPoolMonitorCollector.Describe.map (fun d => d.fqName) =
      ["go_mongo_connection_closed", "go_mongo_pool_created", "go_mongo_connection_created",
       "go_mongo_get_failed", "go_mongo_get_succeeded", "go_mongo_connection_returnd",
       "go_mongo_pool_cleared", "go_mongo_pool_closed", "go_mongo_max_pool_size",
       "go_mongo_min_pool_size", "go_mongo_wait_queue_timeout_ms"] ∧
    (∀ c : commandMonitorCollector, commandReachable c →
      c.Describe = NewCommandMonitorCollector.Describe ∧ c.Collect.2.Describe = c.Describe) ∧
    NewCommandMonitorCollector.Describe.map (fun d => d.fqName) =
      ["go_mongo_command_duration_ns"] ∧
    (∀ suffix : String, fqName suffix = "go_mongo_" ++ suffix) ∧
    NewPoolMonitorCollector.Describe.map (fun d => d.fqName) =
      ["connection_closed", "pool_created", "connection_created", "get_failed",
       "get_succeeded", "connection_returnd", "pool_cleared", "pool_closed", "max_pool_size",
       "min_pool_size", "wait_queue_timeout_ms"].map fqName ∧
    NewCommandMonitorCollector.Describe.map (fun d => d.fqName) =
      ["command_duration_ns"].map fqName ∧
    ((NewPoolMonitorCollector.Describe ++ NewCommandMonitorCollector.Describe).map
      fun d => d.fqName).Nodup ∧
    (∀ (c : poolMonitorCollector) (d : commandMonitorCollector),
      poolReachable c → commandReachable d →
      ∀ name ∈ testNames, name ∈ (c.Collect.1 ++ d.Collect.1).map fun m => m.desc.fqName) := by
  refine ⟨fun c hc => ⟨Describe_of_poolReachable hc, rfl⟩, by decide,
    fun c hc => ⟨Describe_of_commandReachable hc, rfl⟩, by decide, fun _ => rfl, by decide,
    by decide, by decide, ?_⟩
  intro c d hc hd
  have h1 : (c.Collect.1 ++ d.Collect.1).map (fun m => m.desc.fqName) =
      (NewPoolMonitorCollector.Describe ++ NewCommandMonitorCollector.Describe).map
        fun d => d.fqName := by
    rw [← Describe_of_poolReachable hc, ← Describe_of_commandReachable hd]
    rfl
  rw [h1]
  decide

/-- After the end-to-end scenario and after one finished command, the descriptors are those
of fresh collectors and all twelve names of the test are found. -/
theorem fixed_metric_names_witness :
    poolReachable (scenarioEvents.foldl statsAfter NewPoolMonitorCollector) ∧
    commandReachable (NewCommandMonitorCollector.updateCommandStats (finishedOfDuration 7)) ∧
    (scenarioEvents.foldl statsAfter NewPoolMonitorCollector).Describe
      = NewPoolMonitorCollector.Describe ∧
    ∀ name ∈ testNames,
      name ∈ ((scenarioEvents.foldl statsAfter NewPoolMonitorCollector).Collect.1 ++
        (NewCommandMonitorCollector.updateCommandStats (finishedOfDuration 7)).Collect.1).map
          fun m => m.desc.fqName :=
  ⟨⟨scenarioEvents, rfl⟩,
   ⟨[CommandEvent.Succeeded { CommandFinishedEvent := finishedOfDuration 7, Reply := "" }], rfl⟩,
   (fixed_metric_names.1 _ ⟨scenarioEvents, rfl⟩).1,
   fixed_metric_names.2.2.2.2.2.2.2.2 _ _ ⟨scenarioEvents, rfl⟩
     ⟨[CommandEvent.Succeeded { CommandFinishedEvent := finishedOfDuration 7, Reply := "" }],
      rfl⟩⟩

/-- Claim C7 as stated fails: with the closed-connections counter at 2^63 - 1, an `int64`
like the other seven, one more closed-connection event makes `updateStats` return with
that counter at -2^63, below its value before. -/
theorem counter_decreases_at_max :
    (∀ v ∈ counters closedAtMax, isInt64 v) ∧
    closedAtMax.updateStats (some (poolEventOf event.ConnectionClosed none))
      = Except.ok { closedAtMax with connClosed := minInt64 } ∧
    minInt64 < closedAtMax.connClosed := by
  refine ⟨by decide, rfl, by decide⟩

/-- Claim C7, amended. In every state whose eight counters are `int64` values, and for
every pool event such that the counter matching the event's kind is below 2^63 - 1,
`updateStats` returns and each of the eight counters is at least what it was before (and
is again an `int64`).  Hence along every sequence with fewer than 2^63 events of each kind,
delivered through the hook of a fresh collector (the parent hook absent or quiet), the
counters after a prefix are at most the counters after the whole sequence. -/
theorem counters_never_decrease_below_max :
    (∀ (c : poolMonitorCollector) (e : event.PoolEvent),
      (∀ v ∈ counters c, isInt64 v) →
      (∀ kv ∈ kinds.zip (counters c), kv.1 = e.Type_ → kv.2 < maxInt64) →
      ∃ c1, c.updateStats (some e) = Except.ok c1 ∧
        List.Forall₂ (fun before after => before ≤ after) (counters c) (counters c1) ∧
        ∀ v ∈ counters c1, isInt64 v) ∧
    (∀ (W : Type) (parent : Option (event.PoolMonitor (poolMonitorCollector × W))) (w : W)
      (xs ys : List event.PoolEvent),
      quietPoolParent parent → (∀ k, countKind k (xs ++ ys) < 2 ^ 63) →
      ∃ c1 w1 c2 w2,
        deliverPoolAll (poolMonitorCollector.PoolMonitor parent) (NewPoolMonitorCollector, w)
          xs = Except.ok (c1, w1) ∧
        deliverPoolAll (poolMonitorCollector.PoolMonitor parent) (NewPoolMonitorCollector, w)
          (xs ++ ys) = Except.ok (c2, w2) ∧
        List.Forall₂ (fun before after => before ≤ after) (counters c1) (counters c2)) := by
  constructor
  · intro c e hrange hmax
    refine ⟨statsAfter c e, rfl, ?_⟩
    rw [counters_statsAfter]
    exact zipWith_step_le e.Type_ kinds (counters c) rfl hrange hmax
  · intro W parent w xs ys hq hlt
    obtain ⟨w1, h1⟩ := deliverPoolAll_quiet parent hq xs NewPoolMonitorCollector w
    obtain ⟨w2, h2⟩ := deliverPoolAll_quiet parent hq (xs ++ ys) NewPoolMonitorCollector w
    refine ⟨_, w1, _, w2, h1, h2, ?_⟩
    have hxs : ∀ k, countKind k xs < 2 ^ 63 := fun k =>
      lt_of_le_of_lt (by rw [countKind_append]; exact Nat.le_add_right _ _) (hlt k)
    rw [counters_fold_fresh xs hxs, counters_fold_fresh (xs ++ ys) hlt]
    apply forall₂_le_of_map_le
    intro k
    rw [countKind_append]
    push_cast
    omega

/-- One closed-connection event on a collector whose closed-connections counter is
2^63 - 2: the counter goes up, to 2^63 - 1. -/
theorem counters_never_decrease_below_max_witness :
    (∀ v ∈ counters { NewPoolMonitorCollector with connClosed := maxInt64 - 1 }, isInt64 v) ∧
    (∀ kv ∈ kinds.zip (counters { NewPoolMonitorCollector with connClosed := maxInt64 - 1 }),
      kv.1 = (poolEventOf event.ConnectionClosed none).Type_ → kv.2 < maxInt64) ∧
    ∃ c1,
      poolMonitorCollector.updateStats
        { NewPoolMonitorCollector with connClosed := maxInt64 - 1 }
        (some (poolEventOf event.ConnectionClosed none)) = Except.ok c1 ∧
      List.Forall₂ (fun before after => before ≤ after)
        (counters { NewPoolMonitorCollector with connClosed := maxInt64 - 1 }) (counters c1) ∧
      ∀ v ∈ counters c1, isInt64 v :=
  ⟨by decide, by decide,
   counters_never_decrease_below_max.1 _ (poolEventOf event.ConnectionClosed none)
     (by decide) (by decide)⟩

/-- Claim C8 as stated fails: with the successful-checkouts counter at 2^63 - 1, one more
checkout-succeeded event makes `updateStats` return with that counter at -2^63, which is
not its value before plus 1. -/
theorem increment_not_plus_one_at_max :
    succeededAtMax.updateStats (some (poolEventOf event.GetSucceeded none))
      = Except.ok { succeededAtMax with getSucceded := minInt64 } ∧
    minInt64 ≠ succeededAtMax.getSucceded + 1 := by
  refine ⟨rfl, by decide⟩

/-- Claim C8, amended (frame of one pool update). For every state and every pool event
`updateStats` returns without error.  Each counter whose kind is the event's becomes its
value plus 1 reduced to `int64`, the others stay as they are, and the eight kinds are
pairwise different, so at most one counter changes; the change is exactly +1 whenever the
counter is an `int64` below 2^63 - 1, and 2^63 - 1 wraps to -2^63.  The three pool settings
stay as they are when the event carries none.  The counters do not depend on what settings
the event carries.  An event of no recognized kind that carries no settings leaves the
whole state as it is.  The descriptors are never touched. -/
theorem frame_of_one_update (c : poolMonitorCollector) (e : event.PoolEvent) :
    ∃ c1, c.updateStats (some e) = Except.ok c1 ∧
      counters c1 =
        List.zipWith (fun k v => if e.Type_ = k then wrapInt64 (v + 1) else v) kinds
          (counters c) ∧
      kinds.Nodup ∧
      (∀ v, isInt64 v → v < maxInt64 → wrapInt64 (v + 1) = v + 1) ∧
      wrapInt64 (maxInt64 + 1) = minInt64 ∧
      (e.PoolOptions = none → poolSettings c1 = poolSettings c) ∧
      (∀ o, ∃ c2, c.updateStats (some { e with PoolOptions := o }) = Except.ok c2 ∧
        counters c2 = counters c1) ∧
      (e.Type_ ∉ kinds → e.PoolOptions = none → c1 = c) ∧
      c1.Describe = c.Describe := by
  refine ⟨statsAfter c e, rfl, counters_statsAfter c e, by decide,
    fun v hv hlt => wrapInt64_succ_of_lt hv hlt, by decide, ?_, ?_, ?_,
    Describe_statsAfter c e⟩
  · intro ho
    rw [poolSettings_statsAfter, ho]
  · intro o
    refine ⟨statsAfter c { e with PoolOptions := o }, rfl, ?_⟩
    rw [counters_statsAfter, counters_statsAfter]
  · intro hk ho
    unfold statsAfter
    rw [ho, countEvent_of_not_mem c e.Type_ hk]
    rfl

/-- A checkout-succeeded event without settings on the state after the end-to-end
scenario: only the successful-checkouts counter moves, from 0 to 1, and the settings stay
(100, 0, 0); an event of the kind `ConnectionReady`, which is none of the eight, without
settings leaves that state as it is. -/
theorem frame_of_one_update_witness :
    (∃ c1,
      (scenarioEvents.foldl statsAfter NewPoolMonitorCollector).updateStats
        (some (poolEventOf event.GetSucceeded none)) = Except.ok c1 ∧
      counters c1 = [1, 1, 1, 0, 1, 0, 0, 0] ∧
      poolSettings c1 = (100, 0, 0)) ∧
    "ConnectionReady" ∉ kinds ∧
    (scenarioEvents.foldl statsAfter NewPoolMonitorCollector).updateStats
      (some (poolEventOf "ConnectionReady" none))
      = Except.ok (scenarioEvents.foldl statsAfter NewPoolMonitorCollector) := by
  obtain ⟨c1, h1, h2, _, _, _, h3, _, _, _⟩ :=
    frame_of_one_update (scenarioEvents.foldl statsAfter NewPoolMonitorCollector)
      (poolEventOf event.GetSucceeded none)
  obtain ⟨d1, k1, _, _, _, _, _, _, k2, _⟩ :=
    frame_of_one_update (scenarioEvents.foldl statsAfter NewPoolMonitorCollector)
      (poolEventOf "ConnectionReady" none)
  refine ⟨⟨c1, h1, h2.trans (by decide), (h3 rfl).trans (by decide)⟩, by decide, ?_⟩
  rw [k1, k2 (by decide) rfl]

end Prommongo
